import Mathlib

/-!
Verification of the `bevy-ascii-effect` UI layout and surface-compositing core.

Shallow embedding of the UI core of the repository: the character-cell model
(`src/src/ui/character.rs`), the bounds type and its derivation operations
(`src/src/ui/bounds.rs`), the position resolver (`src/src/ui/position.rs`),
the `Value` length type (`src/src/ui/util.rs`) and the layered compositing
surface (`src/src/ui/buffer.rs`).

Modelling conventions:

* Rust `u32` values are modelled as `Nat` and `i32` values as `Int`.
  Rust's checked `+`/`-` arithmetic (which panics on overflow in debug
  builds) is modelled as exact arithmetic; `u32` subtraction appears in the
  source only behind guards or as `saturating_sub`, both modelled exactly by
  `Nat` truncated subtraction.
* Explicit numeric casts are modelled by their defined Rust semantics where
  the relevant claim's input range reaches them: the `i32 -> u32` cast in
  `Value::pixel_u32` is the wrapping cast `v mod 2^32`; the `f32 -> u32`
  cast is the saturating cast (negative values clamp to `0`, values at or
  above `2^32` clamp to `u32::MAX`).  The `u32 -> i32` casts on alignment
  offsets and padding components are modelled as exact `Int` coercions
  (they are value-preserving for all quantities below `2^31`).
* `f32` arithmetic (the `Center` alignment offset and percentage
  resolution) is modelled exactly over `ℚ`; the source's computations are
  exact in `f32` for all extents below `2^24`.
* The `Arc<Mutex<...>>` around the surface data is dropped: locking always
  succeeds in the single-writer regime the code documents, so the surface is
  a plain record and mutation is explicit state passing.
* Partial functions (`todo!()` arms of `AsciiPosition::create_bounds`)
  return `Option`, with `none` marking a panic.
-/

/-- Color enumeration from src/src/ui/character.rs (`Color`, 16 variants,
`repr(u8)` with ordinals 0..15). -/
inductive Color where
  | Black
  | White
  | Red
  | Cyan
  | Violet
  | Green
  | Blue
  | Yellow
  | Orange
  | Brown
  | LightRed
  | DarkGrey
  | Grey
  | LightGreen
  | LightBlue
  | LightGrey
  deriving DecidableEq, Repr

/-- The `repr(u8)` discriminant of a color: the Rust cast `*color as u8`. -/
def Color.toU8 : Color → Nat
  | .Black => 0
  | .White => 1
  | .Red => 2
  | .Cyan => 3
  | .Violet => 4
  | .Green => 5
  | .Blue => 6
  | .Yellow => 7
  | .Orange => 8
  | .Brown => 9
  | .LightRed => 10
  | .DarkGrey => 11
  | .Grey => 12
  | .LightGreen => 13
  | .LightBlue => 14
  | .LightGrey => 15

/-- Glyph enumeration from src/src/ui/character.rs (`Character`, 128 variants,
`repr(u8)` with ordinals 0..127). -/
inductive Character where
  | AT
  | A
  | B
  | C
  | D
  | E
  | F
  | G
  | H
  | I
  | J
  | K
  | L
  | M
  | N
  | O
  | P
  | Q
  | R
  | S
  | T
  | U
  | V
  | W
  | X
  | Y
  | Z
  | LeftBracket
  | Euro
  | RightBracket
  | ArrowUp
  | ArrowLeft
  | Space
  | ExcalamationMark
  | DoubleQuotes
  | Hashtag
  | Dollar
  | Percent
  | Ampersand
  | Apostrophe
  | LeftParenthesis
  | RightParenthesis
  | Asterisk
  | Plus
  | Comma
  | Hyphen
  | Period
  | ForwardSlash
  | Zero
  | One
  | Two
  | Three
  | Four
  | Five
  | Six
  | Seven
  | Eight
  | Nine
  | Colon
  | SemiColon
  | LessThan
  | Equal
  | GreaterThan
  | QuestionMark
  | DashedHorizontalCenter
  | Spade
  | BorderVerticalCenter
  | BorderHorizontalCenter
  | BorderHorizontalN2
  | BorderHorizontalN4
  | BorderHorizontalS2
  | BorderVerticalW2
  | BorderVerticalE2
  | RoundedCornerCenterNE
  | RoundedCornerCenterSW
  | RoundedCornerCenterSE
  | LBorderSW
  | DiagonalEB
  | DiagonalWB
  | LBorderNW
  | LBorderNE
  | Circle
  | BorderHorizontalS4
  | Heart
  | BorderVerticalW4
  | RoundedCornerNW
  | DiagonalCross
  | Doughnut
  | Sign
  | BorderVerticalE4
  | Ball
  | Cross
  | DitherW
  | DashedVerticalCenter
  | Pi
  | StairNE
  | Nil
  | HalfW
  | HalfS
  | ThinBorderN
  | ThinBorderS
  | BorderW
  | Dither
  | BorderE
  | DitherS
  | StairsNW
  | DashedE
  | TBorderNSE
  | QuadSE
  | CornerNE
  | CornerWS
  | BorderS
  | CornerNW
  | TBorderNWE
  | TBorderSWE
  | TBorderNSW
  | DashedW
  | ThickBorderW
  | ThickBorderE
  | BorderN
  | ThickBorderN
  | ThickBorderS
  | LBorderSE
  | QuadSW
  | QuadNE
  | CornerSE
  | QuadNW
  | QuadCorners
  deriving DecidableEq, Repr

/-- The `repr(u8)` discriminant of a glyph: the Rust cast `*index as u8`. -/
def Character.toU8 : Character → Nat
  | .AT => 0
  | .A => 1
  | .B => 2
  | .C => 3
  | .D => 4
  | .E => 5
  | .F => 6
  | .G => 7
  | .H => 8
  | .I => 9
  | .J => 10
  | .K => 11
  | .L => 12
  | .M => 13
  | .N => 14
  | .O => 15
  | .P => 16
  | .Q => 17
  | .R => 18
  | .S => 19
  | .T => 20
  | .U => 21
  | .V => 22
  | .W => 23
  | .X => 24
  | .Y => 25
  | .Z => 26
  | .LeftBracket => 27
  | .Euro => 28
  | .RightBracket => 29
  | .ArrowUp => 30
  | .ArrowLeft => 31
  | .Space => 32
  | .ExcalamationMark => 33
  | .DoubleQuotes => 34
  | .Hashtag => 35
  | .Dollar => 36
  | .Percent => 37
  | .Ampersand => 38
  | .Apostrophe => 39
  | .LeftParenthesis => 40
  | .RightParenthesis => 41
  | .Asterisk => 42
  | .Plus => 43
  | .Comma => 44
  | .Hyphen => 45
  | .Period => 46
  | .ForwardSlash => 47
  | .Zero => 48
  | .One => 49
  | .Two => 50
  | .Three => 51
  | .Four => 52
  | .Five => 53
  | .Six => 54
  | .Seven => 55
  | .Eight => 56
  | .Nine => 57
  | .Colon => 58
  | .SemiColon => 59
  | .LessThan => 60
  | .Equal => 61
  | .GreaterThan => 62
  | .QuestionMark => 63
  | .DashedHorizontalCenter => 64
  | .Spade => 65
  | .BorderVerticalCenter => 66
  | .BorderHorizontalCenter => 67
  | .BorderHorizontalN2 => 68
  | .BorderHorizontalN4 => 69
  | .BorderHorizontalS2 => 70
  | .BorderVerticalW2 => 71
  | .BorderVerticalE2 => 72
  | .RoundedCornerCenterNE => 73
  | .RoundedCornerCenterSW => 74
  | .RoundedCornerCenterSE => 75
  | .LBorderSW => 76
  | .DiagonalEB => 77
  | .DiagonalWB => 78
  | .LBorderNW => 79
  | .LBorderNE => 80
  | .Circle => 81
  | .BorderHorizontalS4 => 82
  | .Heart => 83
  | .BorderVerticalW4 => 84
  | .RoundedCornerNW => 85
  | .DiagonalCross => 86
  | .Doughnut => 87
  | .Sign => 88
  | .BorderVerticalE4 => 89
  | .Ball => 90
  | .Cross => 91
  | .DitherW => 92
  | .DashedVerticalCenter => 93
  | .Pi => 94
  | .StairNE => 95
  | .Nil => 96
  | .HalfW => 97
  | .HalfS => 98
  | .ThinBorderN => 99
  | .ThinBorderS => 100
  | .BorderW => 101
  | .Dither => 102
  | .BorderE => 103
  | .DitherS => 104
  | .StairsNW => 105
  | .DashedE => 106
  | .TBorderNSE => 107
  | .QuadSE => 108
  | .CornerNE => 109
  | .CornerWS => 110
  | .BorderS => 111
  | .CornerNW => 112
  | .TBorderNWE => 113
  | .TBorderSWE => 114
  | .TBorderNSW => 115
  | .DashedW => 116
  | .ThickBorderW => 117
  | .ThickBorderE => 118
  | .BorderN => 119
  | .ThickBorderN => 120
  | .ThickBorderS => 121
  | .LBorderSE => 122
  | .QuadSW => 123
  | .QuadNE => 124
  | .CornerSE => 125
  | .QuadNW => 126
  | .QuadCorners => 127

/-- One cell of the compositing surface, from `src/src/ui/character.rs` /
`src/src/ui/buffer.rs`.  The snapshot of `character.rs` in the repository
declares `Set` without the `layer` field, but `AsciiSurface::set_character`
in `buffer.rs` (and the spec's data model) pattern-matches a fourth `layer`
field on `Set`; the embedding uses that four-field shape.  `into_u8`
ignores the layer, exactly as the serializer in `character.rs` does. -/
inductive AsciiCharacter where
  | Set (index : Character) (text_color : Color) (background_color : Color) (layer : Nat)
  | Unset
  deriving DecidableEq, Repr

/-- Rust `AsciiCharacter::default()`: `Unset`. -/
instance : Inhabited AsciiCharacter := ⟨AsciiCharacter.Unset⟩

/-- Rust `AsciiCharacter::into_u8` (src/src/ui/character.rs lines 30-51): 4 wire
bytes `[glyph, fg, bg, is_set]`; any index outside its enum's `repr` range
exports as `[0,0,0,0]`.  (With 128 glyphs and 16 colors the range test is
never triggered, which the theorems below make explicit.) -/
def AsciiCharacter.into_u8 : AsciiCharacter → List Nat
  | .Set index text_color background_color _ =>
      if 127 < index.toU8 ∨ 15 < text_color.toU8 ∨ 15 < background_color.toU8 then
        [0, 0, 0, 0]
      else
        [index.toU8, text_color.toU8, background_color.toU8, 1]
  | .Unset => [0, 0, 0, 0]

/-- Rust `AsciiBounds` (src/src/ui/bounds.rs lines 119-126): `x,y : i32`,
`width,height,layer : u32`. -/
structure AsciiBounds where
  x : Int
  y : Int
  width : Nat
  height : Nat
  layer : Nat
  deriving DecidableEq, Repr

/-- Derived Rust `Default` for `AsciiBounds`: all fields zero. -/
instance : Inhabited AsciiBounds := ⟨⟨0, 0, 0, 0, 0⟩⟩

/-- Rust `AsciiBounds::is_within` (src/src/ui/bounds.rs lines 154-156): inclusive
rectangle membership test. -/
def AsciiBounds.is_within (b : AsciiBounds) (x y : Int) : Bool :=
  decide (b.x ≤ x) && decide (x ≤ b.x + (b.width : Int)) &&
    decide (b.y ≤ y) && decide (y ≤ b.y + (b.height : Int))

/-- Rust `AsciiBounds::relative` (src/src/ui/bounds.rs lines 164-172): translate a
child's local offset into the parent's space and stack the layers. -/
def AsciiBounds.relative (self child : AsciiBounds) : AsciiBounds :=
  { x := self.x + child.x
    y := self.y + child.y
    width := child.width
    height := child.height
    layer := child.layer + self.layer + 1 }

/-- Modelled from the spec: the `Padding` struct is referenced by
`src/src/ui/position.rs` and `src/src/ui/buffer.rs` (`padding.top`,
`padding.bottom`, `padding.left`, `padding.right`, each cast with `as i32`,
hence unsigned) but its declaration is not part of the source snapshot.
Four unsigned cell counts. -/
structure Padding where
  top : Nat
  bottom : Nat
  left : Nat
  right : Nat
  deriving DecidableEq, Repr

/-- Rust `HorizontalAlignment` (src/src/ui/mod.rs). -/
inductive HorizontalAlignment where
  | Left
  | Center
  | Right
  deriving DecidableEq, Repr

/-- Rust `VerticalAlignment` (src/src/ui/mod.rs). -/
inductive VerticalAlignment where
  | Top
  | Center
  | Bottom
  deriving DecidableEq, Repr

/-- Rust `Value` (src/src/ui/util.rs lines 99-103): an absolute cell count
(`Px(i32)`) or a fraction of the parent extent (`Percent(f32)`, modelled
over `ℚ`). -/
inductive Value where
  | Px (v : Int)
  | Percent (p : ℚ)
  deriving DecidableEq, Repr

/-- Rust's saturating `f32 -> u32` cast (`as u32` on a float): negative
values clamp to `0`, values at or above `2 ^ 32` clamp to `u32::MAX`,
values in range truncate toward zero (= floor, as the value is
nonnegative). -/
def satCastU32 (r : ℚ) : Nat :=
  if r < 0 then 0 else min (⌊r⌋.toNat) (2 ^ 32 - 1)

/-- Rust `Value::pixel_u32` (src/src/ui/util.rs lines 106-112).
`Px(v)` is the wrapping cast `*v as u32`; `Percent(p)` is
`(parent_dim as f32 * p) as u32` with the product modelled exactly. -/
def Value.pixel_u32 : Value → Nat → Nat
  | .Px v, _ => (v % (2 ^ 32 : Int)).toNat
  | .Percent p, parent_dim => satCastU32 ((parent_dim : ℚ) * p)

/-- Rust `AsciiPosition` (src/src/ui/position.rs lines 170-198): the unresolved
layout specification attached to a UI node. -/
inductive AsciiPosition where
  | Aligned (width : Value) (height : Value)
      (horizontal : HorizontalAlignment) (vertical : VerticalAlignment)
  | Padded (padding : Padding)
  | VerticalSlice (total_silces : Nat) (slice : Nat)
  | HorizontalSlice (total_silces : Nat) (slice : Nat)
  | Relative (x : Int) (y : Int) (width : Value) (height : Value) (layer : Nat)
  | Absolute (bounds : AsciiBounds)
  deriving DecidableEq, Repr

/-- The `Center` alignment offset of `format_bounds_aligned`:
`((parent as f32 / 2.0) - (size as f32 / 2.0)).floor().max(0.0) as i32`,
modelled exactly over `ℚ`. -/
def centerOffset (parent size : Nat) : Int :=
  max ⌊(parent : ℚ) / 2 - (size : ℚ) / 2⌋ 0

/-- Rust `AsciiPosition::format_bounds_aligned` (src/src/ui/position.rs lines
371-403): resolve the `Value` extents against the parent, place the child by
alignment, clamp its size to the parent's, and bump the layer.  The source
mutates `child_bounds` in place, assigning every field; the embedding
returns the updated record. -/
def AsciiPosition.format_bounds_aligned (width height : Value)
    (horizontal_alignment : HorizontalAlignment)
    (vertical_alignment : VerticalAlignment)
    (parent_bounds child_bounds : AsciiBounds) : AsciiBounds :=
  let width := width.pixel_u32 parent_bounds.width
  let height := height.pixel_u32 parent_bounds.height
  let x : Int :=
    match horizontal_alignment with
    | .Left => 0
    | .Center => centerOffset parent_bounds.width width
    | .Right => (parent_bounds.width - width : Nat)
  let y : Int :=
    match vertical_alignment with
    | .Top => 0
    | .Center => centerOffset parent_bounds.height height
    | .Bottom => (parent_bounds.height - height : Nat)
  { child_bounds with
    x := parent_bounds.x + x
    y := parent_bounds.y + y
    width := min width parent_bounds.width
    height := min height parent_bounds.height
    layer := parent_bounds.layer + 1 }

/-- Rust `AsciiPosition::format_bounds_padded` (src/src/ui/position.rs lines
405-422): shrink the parent extents by the padding; if either resulting
dimension is `<= 0` the child bounds is returned untouched.  Note the source
never assigns `layer` (and assigns `x,y` from the padding alone). -/
def AsciiPosition.format_bounds_padded (padding : Padding)
    (parent_bounds child_bounds : AsciiBounds) : AsciiBounds :=
  let horizontal_difference : Int :=
    (parent_bounds.width : Int) - (padding.left : Int) - (padding.right : Int)
  let vertical_difference : Int :=
    (parent_bounds.height : Int) - (padding.top : Int) - (padding.bottom : Int)
  if horizontal_difference ≤ 0 ∨ vertical_difference ≤ 0 then
    child_bounds
  else
    { child_bounds with
      x := (padding.left : Int)
      y := (padding.top : Int)
      width := parent_bounds.width - (padding.left + padding.right)
      height := parent_bounds.height - (padding.top + padding.bottom) }

/-- Rust `AsciiPosition::format_bounds_relative` (src/src/ui/position.rs lines
442-455): resolve the `Value` extents against the parent, offset by the
parent's origin, and stack the layers.  The resolved size is NOT clamped to
the parent. -/
def AsciiPosition.format_bounds_relative (x y : Int) (width height : Value)
    (layer : Nat) (parent_bounds child_bounds : AsciiBounds) : AsciiBounds :=
  let width := width.pixel_u32 parent_bounds.width
  let height := height.pixel_u32 parent_bounds.height
  { child_bounds with
    x := x + parent_bounds.x
    y := y + parent_bounds.y
    width := width
    height := height
    layer := layer + parent_bounds.layer + 1 }

/-- Rust `AsciiPosition::create_bounds_aligned` (src/src/ui/position.rs lines
352-369): run `format_bounds_aligned` on a default child. -/
def AsciiPosition.create_bounds_aligned (width height : Value)
    (horizontal_alignment : HorizontalAlignment)
    (vertical_alignment : VerticalAlignment)
    (parent_bounds : AsciiBounds) : AsciiBounds :=
  AsciiPosition.format_bounds_aligned width height horizontal_alignment
    vertical_alignment parent_bounds default

/-- Rust `AsciiPosition::create_bounds_relative` (src/src/ui/position.rs lines
457-461): run `format_bounds_relative` on a default child. -/
def AsciiPosition.create_bounds_relative (x y : Int) (width height : Value)
    (layer : Nat) (parent_bounds : AsciiBounds) : AsciiBounds :=
  AsciiPosition.format_bounds_relative x y width height layer parent_bounds default

/-- Rust `AsciiPosition::create_bounds` (src/src/ui/position.rs lines 318-350):
only the `Aligned` and `Relative` arms are implemented; `Padded`,
`VerticalSlice`, `HorizontalSlice` and `Absolute` are `todo!()` panics,
modelled as `none`. -/
def AsciiPosition.create_bounds (self : AsciiPosition)
    (parent_bounds : AsciiBounds) : Option AsciiBounds :=
  match self with
  | .Aligned width height horizontal vertical =>
      some (AsciiPosition.create_bounds_aligned width height horizontal vertical
        parent_bounds)
  | .Padded _ => none
  | .VerticalSlice _ _ => none
  | .HorizontalSlice _ _ => none
  | .Relative x y width height layer =>
      some (AsciiPosition.create_bounds_relative x y width height layer
        parent_bounds)
  | .Absolute _ => none

/-- Rust `AsciiSurface` (src/src/ui/buffer.rs lines 253-258) with the
`Arc<Mutex<Vec<_>>>` modelled as a plain list (locking always succeeds in
the serialized-write regime the code documents). -/
structure AsciiSurface where
  width : Nat
  height : Nat
  data : List AsciiCharacter
  deriving DecidableEq, Repr

/-- Rust `AsciiSurface::new` (src/src/ui/buffer.rs lines 271-278): a
`width * height` grid of default (`Unset`) cells. -/
def AsciiSurface.new (width height : Nat) : AsciiSurface :=
  { width := width, height := height
    data := List.replicate (width * height) AsciiCharacter.Unset }

/-- Rust `AsciiSurface::calc_index` (src/src/ui/buffer.rs lines 331-337). -/
def AsciiSurface.calc_index (self : AsciiSurface) (x y : Int) : Option Nat :=
  if x < 0 ∨ y < 0 ∨ (self.width : Int) ≤ x ∨ (self.height : Int) ≤ y then
    none
  else
    some (x.toNat + y.toNat * self.width)

/-- The occlusion test of `AsciiSurface::set_character` (src/src/ui/buffer.rs
lines 289-323, the local `layer_test` match): first argument the incoming
cell, second the stored cell.  Note the `(Unset, Set) => true` arm: an
`Unset` write DOES replace a `Set` cell. -/
def AsciiSurface.layer_test : AsciiCharacter → AsciiCharacter → Bool
  | .Set _ _ _ input_layer, .Set _ _ _ data_layer => decide (data_layer ≤ input_layer)
  | .Set _ _ _ _, .Unset => true
  | .Unset, .Set _ _ _ _ => true
  | .Unset, .Unset => false

/-- Rust `AsciiSurface::set_character` (src/src/ui/buffer.rs lines 280-329):
bounds-check via `calc_index`, guard the index against the current data
length, and overwrite the cell when the occlusion test passes.  All failure
paths silently return the surface unchanged. -/
def AsciiSurface.set_character (self : AsciiSurface) (x y : Int)
    (character : AsciiCharacter) : AsciiSurface :=
  match self.calc_index x y with
  | none => self
  | some index =>
      if h : index < self.data.length then
        if AsciiSurface.layer_test character (self.data.get ⟨index, h⟩) then
          { self with data := self.data.set index character }
        else
          self
      else
        self

/-- Rust `AsciiSurface::as_byte_vec` (src/src/ui/buffer.rs lines 339-349):
row-major serialization, 4 bytes per cell. -/
def AsciiSurface.as_byte_vec (self : AsciiSurface) : List Nat :=
  (self.data.map AsciiCharacter.into_u8).flatten

/-- Rust `AsciiSurface::clear` (src/src/ui/buffer.rs lines 351-353): empties the
backing vector; `width` and `height` are untouched. -/
def AsciiSurface.clear (self : AsciiSurface) : AsciiSurface :=
  { self with data := [] }

/-- Rust `AsciiSurface::len` (src/src/ui/buffer.rs lines 355-357): computed from
the dimension fields, not from the data vector. -/
def AsciiSurface.len (self : AsciiSurface) : Nat :=
  self.width * self.height

/-- C9: `is_within` is the inclusive rectangle test: it holds exactly on
`[x, x+width] × [y, y+height]`, and in particular a region still tests true
at the column `x + width` and the row `y + height`. -/
theorem is_within_inclusive :
    (∀ (b : AsciiBounds) (x y : Int),
      b.is_within x y = true ↔
        x ∈ Set.Icc b.x (b.x + (b.width : Int)) ∧
          y ∈ Set.Icc b.y (b.y + (b.height : Int)))
    ∧ ∀ b : AsciiBounds,
        b.is_within (b.x + (b.width : Int)) (b.y + (b.height : Int)) = true := by
  constructor
  · intro b x y
    simp [AsciiBounds.is_within, Set.mem_Icc, and_assoc]
  · intro b
    simp [AsciiBounds.is_within]

/-- C5: every bounds derived from a parent (the `Relative` combination
`AsciiBounds::relative`, the `Aligned` derivation `format_bounds_aligned`,
and `format_bounds_relative`) carries a layer strictly greater than the
parent's layer. -/
theorem layer_monotonicity :
    (∀ p c : AsciiBounds, p.layer < (p.relative c).layer)
    ∧ (∀ (w h : Value) (ha : HorizontalAlignment) (va : VerticalAlignment)
        (p c : AsciiBounds),
        p.layer < (AsciiPosition.format_bounds_aligned w h ha va p c).layer)
    ∧ (∀ (x y : Int) (w h : Value) (l : Nat) (p c : AsciiBounds),
        p.layer < (AsciiPosition.format_bounds_relative x y w h l p c).layer) := by
  refine ⟨fun p c => ?_, fun w h ha va p c => ?_, fun x y w h l p c => ?_⟩ <;>
    simp [AsciiBounds.relative, AsciiPosition.format_bounds_aligned,
      AsciiPosition.format_bounds_relative] <;> omega

/-- C4 counterexample: resolving a `Padded` position through
`AsciiPosition::create_bounds` does not return a `Bounds` — the source arm
is `todo!()`, a panic (modelled as `none`). -/
theorem create_bounds_padded_panics :
    AsciiPosition.create_bounds (.Padded ⟨25, 0, 0, 0⟩) ⟨0, 0, 40, 20, 0⟩ = none := rfl

/-- C4 (amended): `create_bounds` always returns a `Bounds` for the
`Aligned` and `Relative` variants; the `Padded`, `VerticalSlice`,
`HorizontalSlice` and `Absolute` arms panic via `todo!()`. -/
theorem create_bounds_totality :
    (∀ (w h : Value) (ha : HorizontalAlignment) (va : VerticalAlignment)
      (pb : AsciiBounds), ∃ b, AsciiPosition.create_bounds (.Aligned w h ha va) pb = some b)
    ∧ (∀ (x y : Int) (w h : Value) (l : Nat) (pb : AsciiBounds),
        ∃ b, AsciiPosition.create_bounds (.Relative x y w h l) pb = some b)
    ∧ (∀ (p : Padding) (pb : AsciiBounds),
        AsciiPosition.create_bounds (.Padded p) pb = none)
    ∧ (∀ (t s : Nat) (pb : AsciiBounds),
        AsciiPosition.create_bounds (.VerticalSlice t s) pb = none)
    ∧ (∀ (t s : Nat) (pb : AsciiBounds),
        AsciiPosition.create_bounds (.HorizontalSlice t s) pb = none)
    ∧ (∀ (b : AsciiBounds) (pb : AsciiBounds),
        AsciiPosition.create_bounds (.Absolute b) pb = none) :=
  ⟨fun w h ha va pb => ⟨_, rfl⟩, fun x y w h l pb => ⟨_, rfl⟩,
    fun p pb => rfl, fun t s pb => rfl, fun t s pb => rfl, fun b pb => rfl⟩

/-- C3 counterexample: a `Relative` resolution is not clamped to the parent:
`Relative{x:0,y:0,width:Px(100),height:Px(100)}` over a 40×20 parent yields
width 100 > 40. -/
theorem relative_resolution_exceeds_parent :
    ¬ ((AsciiPosition.format_bounds_relative 0 0 (.Px 100) (.Px 100) 0
          ⟨0, 0, 40, 20, 0⟩ default).width ≤ (⟨0, 0, 40, 20, 0⟩ : AsciiBounds).width
        ∧ (AsciiPosition.format_bounds_relative 0 0 (.Px 100) (.Px 100) 0
          ⟨0, 0, 40, 20, 0⟩ default).height ≤ (⟨0, 0, 40, 20, 0⟩ : AsciiBounds).height) := by
  decide

/-- C3 (amended): containment holds for `Aligned` resolutions — the resolved
width and height are clamped by `min` to the parent's extents.  (`Relative`
resolutions copy the resolved size unclamped, see the counterexample.) -/
theorem aligned_resolution_containment :
    ∀ (w h : Value) (ha : HorizontalAlignment) (va : VerticalAlignment)
      (p c : AsciiBounds),
      (AsciiPosition.format_bounds_aligned w h ha va p c).width ≤ p.width ∧
        (AsciiPosition.format_bounds_aligned w h ha va p c).height ≤ p.height := by
  intro w h ha va p c
  constructor <;> simp [AsciiPosition.format_bounds_aligned]

/-- C7: when either padded dimension would be non-positive
(`parent.width - padding.left - padding.right <= 0` or
`parent.height - padding.top - padding.bottom <= 0`), `format_bounds_padded`
returns the child bounds exactly as it was: a defined no-op, not an error. -/
theorem padded_noop_when_padding_exceeds_extent
    (padding : Padding) (parent child : AsciiBounds)
    (h : (parent.width : Int) - (padding.left : Int) - (padding.right : Int) ≤ 0 ∨
      (parent.height : Int) - (padding.top : Int) - (padding.bottom : Int) ≤ 0) :
    AsciiPosition.format_bounds_padded padding parent child = child := by
  simp only [AsciiPosition.format_bounds_padded]
  exact if_pos h

/-- C7 witness: a padding with `top = 25` applied to a 20-tall parent leaves
the child bounds at its prior value. -/
theorem padded_noop_when_padding_exceeds_extent_witness :
    (((⟨0, 0, 40, 20, 0⟩ : AsciiBounds).width : Int) - ((25 : Nat) : Int) - ((0 : Nat) : Int) ≤ 0 ∨
      ((⟨0, 0, 40, 20, 0⟩ : AsciiBounds).height : Int) - ((25 : Nat) : Int) - ((0 : Nat) : Int) ≤ 0)
    ∧ AsciiPosition.format_bounds_padded ⟨25, 0, 25, 0⟩ ⟨0, 0, 40, 20, 0⟩ ⟨1, 2, 3, 4, 5⟩ =
        ⟨1, 2, 3, 4, 5⟩ :=
  ⟨by decide,
    padded_noop_when_padding_exceeds_extent ⟨25, 0, 25, 0⟩ ⟨0, 0, 40, 20, 0⟩ ⟨1, 2, 3, 4, 5⟩
      (by decide)⟩

/-- C10: after `clear()`, the dimension fields are unchanged and the backing
array is empty: `len()` still reports `width * height`, every subsequent
`set_character` (at any coordinate) is a silent no-op because the
index-versus-data-length guard fails, and `as_byte_vec()` is empty. -/
theorem clear_empties_data_keeps_dims :
    ∀ s : AsciiSurface,
      (s.clear.width = s.width ∧ s.clear.height = s.height ∧ s.clear.data = [])
      ∧ s.clear.len = s.width * s.height
      ∧ (∀ (x y : Int) (c : AsciiCharacter), s.clear.set_character x y c = s.clear)
      ∧ s.clear.as_byte_vec = [] := by
  intro s
  refine ⟨⟨rfl, rfl, rfl⟩, rfl, fun x y c => ?_, rfl⟩
  unfold AsciiSurface.set_character
  cases h : s.clear.calc_index x y with
  | none => rfl
  | some i => simp [AsciiSurface.clear]

/-- C2 counterexample: `Px(-1)` does not resolve to `max(-1,0) = 0`; the
`as u32` cast wraps, giving `4294967295`. -/
theorem pixel_u32_px_negative_not_clamped :
    Value.pixel_u32 (.Px (-1)) 10 = 4294967295 ∧ (4294967295 : Nat) ≠ 0 := by decide

/-- C2 (amended): `Px(v)` resolves by the wrapping cast `v mod 2^32` — it
equals `v` for `0 ≤ v < 2^32` and `2^32 + v` for negative in-range `v`, not
`max(v,0)` — while `Percent(p)` resolves to `floor(parent * p)` whenever the
product is nonnegative and below `2^32` (in the exact-rational model of the
`f32` arithmetic). -/
theorem pixel_u32_resolution :
    (∀ (v : Int) (p : Nat), 0 ≤ v → v < 2 ^ 32 →
      Value.pixel_u32 (.Px v) p = v.toNat)
    ∧ (∀ (v : Int) (p : Nat), v < 0 → -(2 ^ 32) ≤ v →
        Value.pixel_u32 (.Px v) p = (2 ^ 32 + v).toNat)
    ∧ (∀ (q : ℚ) (p : Nat), 0 ≤ (p : ℚ) * q → (p : ℚ) * q < 2 ^ 32 →
        Value.pixel_u32 (.Percent q) p = (⌊(p : ℚ) * q⌋).toNat) := by
  refine ⟨fun v p h0 h1 => ?_, fun v p h0 h1 => ?_, fun q p h0 h1 => ?_⟩
  · simp only [Value.pixel_u32]
    omega
  · simp only [Value.pixel_u32]
    omega
  · simp only [Value.pixel_u32, satCastU32]
    rw [if_neg (by exact not_lt.mpr h0)]
    have hfl : ⌊(p : ℚ) * q⌋ < 2 ^ 32 := by
      exact_mod_cast Int.floor_lt.mpr (by exact_mod_cast h1)
    omega

/-- C2 witness: `Px(7)` over parent 3 gives 7; `Px(-1)` over parent 10 gives
`2^32 - 1`; `Percent(1/2)` over parent 40 gives `floor(20) = 20`. -/
theorem pixel_u32_resolution_witness :
    ((0 : Int) ≤ 7 ∧ (7 : Int) < 2 ^ 32 ∧ Value.pixel_u32 (.Px 7) 3 = Int.toNat 7)
    ∧ ((-1 : Int) < 0 ∧ -(2 ^ 32) ≤ (-1 : Int) ∧
        Value.pixel_u32 (.Px (-1)) 10 = Int.toNat (2 ^ 32 + (-1)))
    ∧ (0 ≤ ((40 : Nat) : ℚ) * (1 / 2) ∧ ((40 : Nat) : ℚ) * (1 / 2) < 2 ^ 32 ∧
        Value.pixel_u32 (.Percent (1 / 2)) 40 = Int.toNat ⌊((40 : Nat) : ℚ) * (1 / 2)⌋) :=
  ⟨⟨by norm_num, by norm_num, pixel_u32_resolution.1 7 3 (by norm_num) (by norm_num)⟩,
    ⟨by norm_num, by norm_num, pixel_u32_resolution.2.1 (-1) 10 (by norm_num) (by norm_num)⟩,
    ⟨by norm_num, by norm_num, pixel_u32_resolution.2.2 (1 / 2) 40 (by norm_num) (by norm_num)⟩⟩

/-- C6: the centered 10×4 box scenario: `Aligned{Px 10, Px 4, Center,
Center}` resolved against the parent `{x:0, y:0, w:40, h:20, layer:0}`
yields exactly `{x:15, y:8, w:10, h:4, layer:1}`. -/
theorem centered_box_scenario :
    AsciiPosition.create_bounds (.Aligned (.Px 10) (.Px 4) .Center .Center)
      ⟨0, 0, 40, 20, 0⟩ = some ⟨15, 8, 10, 4, 1⟩ := by
  have h1 : Value.pixel_u32 (.Px 10) 40 = 10 := by decide
  have h2 : Value.pixel_u32 (.Px 4) 20 = 4 := by decide
  simp only [AsciiPosition.create_bounds, AsciiPosition.create_bounds_aligned,
    AsciiPosition.format_bounds_aligned, h1, h2, centerOffset]
  norm_num

/-- C1 counterexample: writing `Unset` into a cell holding a `Set` character
destroys it — the `(Unset, Set) => true` arm of the occlusion match lets the
write through, replacing the stored cell with `Unset`. -/
theorem set_character_unset_destroys_set :
    (AsciiSurface.set_character ⟨1, 1, [.Set .AT .White .Black 5]⟩ 0 0 .Unset).data
      = [.Unset]
    ∧ (⟨1, 1, [.Set .AT .White .Black 5]⟩ : AsciiSurface).data ≠ [.Unset] := by
  decide

/-- C1 (amended): the occlusion rule of in-range `set_character` writes: a
`Set` write over a `Set` cell takes effect exactly when the new layer is at
least the old one; a `Set` write always replaces an `Unset` cell; an
`Unset` write REPLACES a `Set` cell (clearing it); an `Unset` write over an
`Unset` cell leaves the surface unchanged. -/
theorem set_character_occlusion (s : AsciiSurface) (x y : Int) (i : Nat)
    (hi : s.calc_index x y = some i) (hl : i < s.data.length) :
    (∀ (g : Character) (f b : Color) (L : Nat) (g' : Character) (f' b' : Color) (L' : Nat),
      s.data[i]? = some (.Set g' f' b' L') →
      (s.set_character x y (.Set g f b L)).data[i]? =
        some (if L' ≤ L then AsciiCharacter.Set g f b L else .Set g' f' b' L'))
    ∧ (∀ (g : Character) (f b : Color) (L : Nat),
        s.data[i]? = some .Unset →
        (s.set_character x y (.Set g f b L)).data[i]? = some (.Set g f b L))
    ∧ (∀ (g' : Character) (f' b' : Color) (L' : Nat),
        s.data[i]? = some (.Set g' f' b' L') →
        (s.set_character x y .Unset).data[i]? = some .Unset)
    ∧ (s.data[i]? = some .Unset → s.set_character x y .Unset = s) := by
  have hget : s.data.get ⟨i, hl⟩ = s.data[i] := rfl
  refine ⟨fun g f b L g' f' b' L' hold => ?_, fun g f b L hold => ?_,
    fun g' f' b' L' hold => ?_, fun hold => ?_⟩ <;>
    have hval : s.data[i] = _ := Option.some.inj ((List.getElem?_eq_getElem hl).symm.trans hold)
  · unfold AsciiSurface.set_character
    rw [hi]
    dsimp only
    rw [dif_pos hl, hget, hval]
    by_cases hL : L' ≤ L
    · rw [if_pos (by simp [AsciiSurface.layer_test, hL])]
      simp [List.getElem?_set_eq_of_lt, hl, hL]
    · rw [if_neg (by simp [AsciiSurface.layer_test, hL])]
      simp [hold, hL]
  · unfold AsciiSurface.set_character
    rw [hi]
    dsimp only
    rw [dif_pos hl, hget, hval]
    rw [if_pos (by simp [AsciiSurface.layer_test])]
    simp [List.getElem?_set_eq_of_lt, hl]
  · unfold AsciiSurface.set_character
    rw [hi]
    dsimp only
    rw [dif_pos hl, hget, hval]
    rw [if_pos (by simp [AsciiSurface.layer_test])]
    simp [List.getElem?_set_eq_of_lt, hl]
  · unfold AsciiSurface.set_character
    rw [hi]
    dsimp only
    rw [dif_pos hl, hget, hval]
    rw [if_neg (by simp [AsciiSurface.layer_test])]

/-- C1 witness: over a one-cell surface holding `Set{AT,White,Black,layer 3}`,
an in-range write of `Set{A,White,Black,layer 5}` (5 >= 3) takes effect. -/
theorem set_character_occlusion_witness :
    (⟨1, 1, [.Set .AT .White .Black 3]⟩ : AsciiSurface).calc_index 0 0 = some 0
    ∧ 0 < (⟨1, 1, [.Set .AT .White .Black 3]⟩ : AsciiSurface).data.length
    ∧ (⟨1, 1, [.Set .AT .White .Black 3]⟩ : AsciiSurface).data[0]?
        = some (.Set .AT .White .Black 3)
    ∧ (AsciiSurface.set_character ⟨1, 1, [.Set .AT .White .Black 3]⟩ 0 0
        (.Set .A .White .Black 5)).data[0]? =
      some (if 3 ≤ 5 then AsciiCharacter.Set .A .White .Black 5 else .Set .AT .White .Black 3) :=
  ⟨by decide, by decide, by decide,
    (set_character_occlusion ⟨1, 1, [.Set .AT .White .Black 3]⟩ 0 0 0 (by decide)
        (by decide)).1 .A .White .Black 5 .AT .White .Black 3 (by decide)⟩

/-- Every serialized cell is exactly 4 bytes wide. -/
lemma into_u8_length (c : AsciiCharacter) : c.into_u8.length = 4 := by
  cases c with
  | Set i t b l =>
      simp only [AsciiCharacter.into_u8]
      split <;> rfl
  | Unset => rfl

/-- Length of the flattened serialization of a cell list. -/
lemma flatten_map_into_u8_length (l : List AsciiCharacter) :
    ((l.map AsciiCharacter.into_u8).flatten).length = 4 * l.length := by
  induction l with
  | nil => rfl
  | cons a as ih =>
      simp [into_u8_length, ih]
      omega

/-- Byte `j` of cell `k` of the flattened serialization is byte `j` of that
cell's 4-byte chunk. -/
lemma flatten_map_into_u8_getElem (l : List AsciiCharacter) (k j : Nat) (hj : j < 4) :
    ((l.map AsciiCharacter.into_u8).flatten)[4 * k + j]? =
      l[k]?.bind (fun c => (c.into_u8)[j]?) := by
  induction l generalizing k with
  | nil => simp
  | cons a as ih =>
      cases k with
      | zero =>
          simp only [List.map_cons, List.flatten_cons, Nat.mul_zero, Nat.zero_add]
          rw [List.getElem?_append, if_pos (by rw [into_u8_length]; omega)]
          simp
      | succ k =>
          simp only [List.map_cons, List.flatten_cons]
          rw [List.getElem?_append_right (by rw [into_u8_length]; omega)]
          rw [into_u8_length]
          have : 4 * (k + 1) + j - 4 = 4 * k + j := by omega
          rw [this, ih k]
          simp

/-- C8: serialization is row-major with 4 bytes per cell: a `Set` cell whose
glyph ordinal is in `0..=127` and whose color ordinals are in `0..=15`
exports as `[glyph, fg, bg, 1]`; a `Set` cell outside those ranges, and an
`Unset` cell, export as `[0,0,0,0]`; hence a surface whose only `Set` cell
sits at `(x,y)` with glyph ordinal 3 (`Character::C`), foreground 5
(`Color::Green`) and background 2 (`Color::Red`) serializes to `[3,5,2,1]`
at byte offset `4*(y*width+x)` and `[0,0,0,0]` everywhere else. -/
theorem surface_serialization :
    (∀ (i : Character) (t b : Color) (l : Nat),
      i.toU8 ≤ 127 → t.toU8 ≤ 15 → b.toU8 ≤ 15 →
      AsciiCharacter.into_u8 (.Set i t b l) = [i.toU8, t.toU8, b.toU8, 1])
    ∧ (∀ (i : Character) (t b : Color) (l : Nat),
        127 < i.toU8 ∨ 15 < t.toU8 ∨ 15 < b.toU8 →
        AsciiCharacter.into_u8 (.Set i t b l) = [0, 0, 0, 0])
    ∧ AsciiCharacter.into_u8 .Unset = [0, 0, 0, 0]
    ∧ (∀ (w h x y l : Nat) (s : AsciiSurface),
        x < w → y < h → s.width = w → s.height = h →
        s.data.length = w * h →
        (∀ k, k < w * h →
          s.data[k]? = some (if k = y * w + x then .Set .C .Green .Red l else .Unset)) →
        s.as_byte_vec.length = 4 * (w * h) ∧
          ∀ k, k < 4 * (w * h) →
            s.as_byte_vec[k]? = some (
              if k = 4 * (y * w + x) then 3
              else if k = 4 * (y * w + x) + 1 then 5
              else if k = 4 * (y * w + x) + 2 then 2
              else if k = 4 * (y * w + x) + 3 then 1
              else 0)) := by
  refine ⟨fun i t b l h1 h2 h3 => ?_, fun i t b l h => ?_, rfl,
    fun w h x y l s hx hy hw hh hlen hdata => ?_⟩
  · simp only [AsciiCharacter.into_u8]
    rw [if_neg (by omega)]
  · simp only [AsciiCharacter.into_u8]
    rw [if_pos h]
  · constructor
    · rw [AsciiSurface.as_byte_vec, flatten_map_into_u8_length, hlen]
    · intro k hk
      have hkeq : k = 4 * (k / 4) + k % 4 := by omega
      have hq : k / 4 < w * h := by omega
      have hj : k % 4 < 4 := by omega
      rw [AsciiSurface.as_byte_vec, hkeq, flatten_map_into_u8_getElem _ _ _ hj]
      rw [hdata (k / 4) hq]
      by_cases hqt : k / 4 = y * w + x
      · rw [if_pos hqt]
        have hcell : AsciiCharacter.into_u8 (.Set .C .Green .Red l) = [3, 5, 2, 1] := rfl
        rw [Option.some_bind, hcell]
        have h4 : k % 4 = 0 ∨ k % 4 = 1 ∨ k % 4 = 2 ∨ k % 4 = 3 := by omega
        rcases h4 with h4 | h4 | h4 | h4 <;>
          rw [h4] <;> simp <;> split_ifs <;> omega
      · rw [if_neg hqt, Option.some_bind]
        have h4 : k % 4 = 0 ∨ k % 4 = 1 ∨ k % 4 = 2 ∨ k % 4 = 3 := by omega
        rcases h4 with h4 | h4 | h4 | h4 <;>
          rw [h4] <;> simp [AsciiCharacter.into_u8] <;> split_ifs <;> omega

/-- C8 witness: the 2×2 surface with its single `Set` cell at `(1,0)`
serializes to 16 bytes with `[3,5,2,1]` at offset 4. -/
theorem surface_serialization_witness :
    (∀ k, k < 2 * 2 →
      ((⟨2, 2, [.Unset, .Set .C .Green .Red 0, .Unset, .Unset]⟩ : AsciiSurface).data)[k]? =
        some (if k = 0 * 2 + 1 then AsciiCharacter.Set .C .Green .Red 0 else .Unset))
    ∧ (⟨2, 2, [.Unset, .Set .C .Green .Red 0, .Unset, .Unset]⟩ :
        AsciiSurface).as_byte_vec.length = 4 * (2 * 2)
    ∧ ∀ k, k < 4 * (2 * 2) →
        (⟨2, 2, [.Unset, .Set .C .Green .Red 0, .Unset, .Unset]⟩ :
          AsciiSurface).as_byte_vec[k]? =
          some (if k = 4 * (0 * 2 + 1) then 3 else if k = 4 * (0 * 2 + 1) + 1 then 5
            else if k = 4 * (0 * 2 + 1) + 2 then 2
            else if k = 4 * (0 * 2 + 1) + 3 then 1 else 0) :=
  ⟨by decide,
    (surface_serialization.2.2.2 2 2 1 0 0
      ⟨2, 2, [.Unset, .Set .C .Green .Red 0, .Unset, .Unset]⟩
      (by decide) (by decide) rfl rfl (by decide) (by decide)).1,
    (surface_serialization.2.2.2 2 2 1 0 0
      ⟨2, 2, [.Unset, .Set .C .Green .Red 0, .Unset, .Unset]⟩
      (by decide) (by decide) rfl rfl (by decide) (by decide)).2⟩
